import Mathlib

/-!
Shallow embedding of the Boundary water-simulation core.

The particle integration loop (`WaterSimulation.update` in
water-simulation.js, THREE variant) is modelled over ℚ: per particle and
per tick it applies gravity to the vertical velocity, multiplies every
velocity component by the damping factor `1 - viscosity*delta`, integrates
the position, resolves ground collision against `waterLevel*10 - 5`, clamps
against the vertical walls at distance 10, and finally recycles the
particle from fresh random draws when its height falls below -10.  The
droplet variant (`WaterSimulation.updateWaterDroplets` in the Babylon
TypeScript source) is modelled separately with its ground plane
`(waterLevel - 0.5)*10 - 1`.  Randomness is made explicit: the values the
code obtains from Math.random() are passed in as parameters in [0, 1).
-/

namespace Boundary

/-- One water particle: position and velocity components, as stored in the
flat `positions` / `velocities` buffers of the particle system. -/
structure Particle where
  px : ℚ
  py : ℚ
  pz : ℚ
  vx : ℚ
  vy : ℚ
  vz : ℚ
deriving DecidableEq

/-- The simulation parameters read by the particle update loop. -/
structure SimParams where
  waterLevel : ℚ
  viscosity : ℚ
  gravity : ℚ
deriving DecidableEq

/-- The six Math.random() draws consumed, in call order, when a particle is
reset (x, y, z position draws then x, y, z velocity draws). -/
structure RandDraws where
  r1 : ℚ
  r2 : ℚ
  r3 : ℚ
  r4 : ℚ
  r5 : ℚ
  r6 : ℚ
deriving DecidableEq

/-- Gravity step: `velocities[i+1] -= gravity * delta`. -/
def applyGravity (g δ : ℚ) (p : Particle) : Particle :=
  { p with vy := p.vy - g * δ }

/-- Viscosity step: every velocity component is multiplied by
`1 - viscosity * delta` (the code applies this factor as written, with no
clamping). -/
def applyViscosity (ν δ : ℚ) (p : Particle) : Particle :=
  { p with vx := p.vx * (1 - ν * δ)
         , vy := p.vy * (1 - ν * δ)
         , vz := p.vz * (1 - ν * δ) }

/-- Position integration: `positions[i] += velocities[i] * delta`. -/
def integrate (δ : ℚ) (p : Particle) : Particle :=
  { p with px := p.px + p.vx * δ
         , py := p.py + p.vy * δ
         , pz := p.pz + p.vz * δ }

/-- The ground plane used by the particle loop:
`const groundLevel = this.waterLevel * 10 - 5`. -/
def groundLevel (waterLevel : ℚ) : ℚ :=
  waterLevel * 10 - 5

/-- Ground collision: below `groundLevel` the height is clamped, the
vertical velocity is multiplied by -0.3 and the horizontal components by
0.8. -/
def groundCollide (waterLevel : ℚ) (p : Particle) : Particle :=
  if p.py < groundLevel waterLevel then
    { p with py := groundLevel waterLevel
           , vy := p.vy * (-3/10)
           , vx := p.vx * (8/10)
           , vz := p.vz * (8/10) }
  else p

/-- Math.sign. -/
def qsign (x : ℚ) : ℚ :=
  if 0 < x then 1 else if x < 0 then -1 else 0

/-- Wall collision on the X axis: `if (Math.abs(positions[i]) > boundary)`
with `boundary = 10`, clamping the position to `sign * 10` and multiplying
the velocity component by -0.5. -/
def wallCollideX (p : Particle) : Particle :=
  if 10 < |p.px| then { p with px := qsign p.px * 10, vx := p.vx * (-1/2) }
  else p

/-- Wall collision on the Z axis, identical to the X case. -/
def wallCollideZ (p : Particle) : Particle :=
  if 10 < |p.pz| then { p with pz := qsign p.pz * 10, vz := p.vz * (-1/2) }
  else p

/-- Both wall checks, in source order (X first, then Z). -/
def wallCollide (p : Particle) : Particle :=
  wallCollideZ (wallCollideX p)

/-- The particle state written by the recycle branch of the update loop:
position `((r-0.5)*20, r*5 + 10, (r-0.5)*20)` and velocity
`((r-0.5)*0.5, -r*0.5, (r-0.5)*0.5)` from six fresh draws. -/
def recycleTarget (r : RandDraws) : Particle :=
  { px := (r.r1 - 1/2) * 20
  , py := r.r2 * 5 + 10
  , pz := (r.r3 - 1/2) * 20
  , vx := (r.r4 - 1/2) * (1/2)
  , vy := -(r.r5 * (1/2))
  , vz := (r.r6 - 1/2) * (1/2) }

/-- Recycle step: `if (positions[i+1] < -10)` the particle is reset. -/
def recycle (r : RandDraws) (p : Particle) : Particle :=
  if p.py < -10 then recycleTarget r else p

/-- The particle state produced at initial spawn
(`createParticleSystem`): position `((r-0.5)*20, r*5 + 5, (r-0.5)*20)` and
velocity `((r-0.5)*0.5, -r*0.5, (r-0.5)*0.5)`. -/
def spawnParticle (r : RandDraws) : Particle :=
  { px := (r.r1 - 1/2) * 20
  , py := r.r2 * 5 + 5
  , pz := (r.r3 - 1/2) * 20
  , vx := (r.r4 - 1/2) * (1/2)
  , vy := -(r.r5 * (1/2))
  , vz := (r.r6 - 1/2) * (1/2) }

/-- The per-particle state after integration, ground and wall handling but
before the recycle test. -/
def preRecycle (P : SimParams) (δ : ℚ) (p : Particle) : Particle :=
  wallCollide (groundCollide P.waterLevel
    (integrate δ (applyViscosity P.viscosity δ (applyGravity P.gravity δ p))))

/-- One full per-particle tick of `WaterSimulation.update`, in source
order: gravity, viscosity damping, integration, ground collision, wall
collision, recycle. -/
def particleTick (P : SimParams) (δ : ℚ) (r : RandDraws) (p : Particle) : Particle :=
  recycle r (preRecycle P δ p)

/-- Squared speed of a particle. -/
def speedSq (p : Particle) : ℚ :=
  p.vx ^ 2 + p.vy ^ 2 + p.vz ^ 2

/-- The droplet ground plane of `updateWaterDroplets`:
`const groundLevel = (this.waterLevel - 0.5) * 10 - 1`. -/
def dropletGroundY (waterLevel : ℚ) : ℚ :=
  (waterLevel - 1/2) * 10 - 1

/-- Droplet ground bounce: below the droplet ground plane the height is
clamped, the vertical velocity is multiplied by -0.3 and the horizontal
components by 0.8; otherwise the droplet is left untouched. -/
def dropletGroundBounce (waterLevel : ℚ) (p : Particle) : Particle :=
  if p.py < dropletGroundY waterLevel then
    { p with py := dropletGroundY waterLevel
           , vy := p.vy * (-3/10)
           , vx := p.vx * (8/10)
           , vz := p.vz * (8/10) }
  else p

/-- Droplet recycle: below height -10 the droplet is reset to position
`((r-0.5)*15, 10 + r*5, (r-0.5)*15)` and velocity
`((r-0.5)*0.5, -r*2, (r-0.5)*0.5)`. -/
def dropletRecycle (r : RandDraws) (p : Particle) : Particle :=
  if p.py < -10 then
    { px := (r.r1 - 1/2) * 15
    , py := 10 + r.r2 * 5
    , pz := (r.r3 - 1/2) * 15
    , vx := (r.r4 - 1/2) * (1/2)
    , vy := -(r.r5 * 2)
    , vz := (r.r6 - 1/2) * (1/2) }
  else p

/-- One full per-droplet tick of `updateWaterDroplets`: gravity,
integration, ground bounce, recycle. -/
def dropletTick (waterLevel g δ : ℚ) (r : RandDraws) (p : Particle) : Particle :=
  dropletRecycle r (dropletGroundBounce waterLevel (integrate δ (applyGravity g δ p)))

/-- A real-valued 3-vector, used for the wave mesh vertices and for the
shape-collision geometry. -/
structure Vec3 where
  x : ℝ
  y : ℝ
  z : ℝ

/-- Componentwise vector addition. -/
def Vec3.add (a b : Vec3) : Vec3 :=
  ⟨a.x + b.x, a.y + b.y, a.z + b.z⟩

/-- Componentwise vector subtraction. -/
def Vec3.sub (a b : Vec3) : Vec3 :=
  ⟨a.x - b.x, a.y - b.y, a.z - b.z⟩

/-- Scalar multiple of a vector. -/
def Vec3.smul (c : ℝ) (a : Vec3) : Vec3 :=
  ⟨c * a.x, c * a.y, c * a.z⟩

/-- Dot product. -/
def Vec3.dot (a b : Vec3) : ℝ :=
  a.x * b.x + a.y * b.y + a.z * b.z

/-- Euclidean length of a vector. -/
noncomputable def Vec3.norm (a : Vec3) : ℝ :=
  Real.sqrt (a.x ^ 2 + a.y ^ 2 + a.z ^ 2)

/-- Euclidean distance between two points (Vector3.distanceTo). -/
noncomputable def Vec3.dist (a b : Vec3) : ℝ :=
  (a.sub b).norm

/-- Vector3.normalize: divide by the length, leaving the zero vector
unchanged (the library divides by `length || 1`). -/
noncomputable def Vec3.normalize (a : Vec3) : Vec3 :=
  if a.norm = 0 then a else Vec3.smul (1 / a.norm) a

/-- Vector3.reflect off the plane orthogonal to a unit normal:
`v - 2 (v . n) n`. -/
def Vec3.reflect (v n : Vec3) : Vec3 :=
  v.sub (Vec3.smul (2 * v.dot n) n)

/-- The WaveField state of the Babylon `WaterSimulation.update`: the
accumulated phase time, the immutable rest vertices captured at
construction, and the current (animated) vertex buffer. -/
structure WaveField where
  simTime : ℝ
  rest : List Vec3
  curr : List Vec3

/-- The three-term wave superposition written into a vertex height:
`sin(x*0.5 + t*2.0)*0.1 + cos(z*0.3 + t*1.5)*0.08 +
sin((x+z)*0.4 + t*2.5)*0.05` added to the rest height, with x and z the
rest coordinates of the vertex. -/
noncomputable def waveHeight (o : Vec3) (t : ℝ) : ℝ :=
  o.y + Real.sin (o.x * 0.5 + t * 2.0) * 0.1
      + Real.cos (o.z * 0.3 + t * 1.5) * 0.08
      + Real.sin ((o.x + o.z) * 0.4 + t * 2.5) * 0.05

/-- One WaveField tick: advance `time += delta * waveSpeed`, then rewrite
only the Y component of every current vertex from the rest vertex and the
new time; X and Z of the current buffer are carried over untouched. -/
noncomputable def waveTick (waveSpeed δ : ℝ) (f : WaveField) : WaveField :=
  { simTime := f.simTime + δ * waveSpeed
  , rest := f.rest
  , curr := List.zipWith
      (fun o c => ⟨c.x, waveHeight o (f.simTime + δ * waveSpeed), c.z⟩)
      f.rest f.curr }

/-- Run a sequence of WaveField ticks; each list entry supplies the
waveSpeed in force for that tick and the tick's delta. -/
noncomputable def runWaveTicks : List (ℝ × ℝ) → WaveField → WaveField
  | [], f => f
  | (w, d) :: rest, f => runWaveTicks rest (waveTick w d f)

/-- The geometry kinds distinguished by `ShapeManager.checkCollision`. -/
inductive GeomType where
  | box
  | sphere
  | cylinder
  | cone
  | torus
  | plane
  | other
deriving DecidableEq

/-- A shape proxy as seen by the collision test: world position, scale and
geometry kind. -/
structure Shape where
  pos : Vec3
  scale : Vec3
  geo : GeomType

/-- The effective collision radius computed by `checkCollision` from the
geometry type and the scale (default 1.0 for unrecognized types). -/
def collisionSize (s : Shape) : ℝ :=
  match s.geo with
  | .box => max (max s.scale.x s.scale.y) s.scale.z
  | .sphere => s.scale.x
  | .cylinder => max s.scale.x s.scale.y
  | .cone => max s.scale.x s.scale.y
  | .torus => s.scale.x * 1.3
  | .plane => max s.scale.x s.scale.y * 2
  | .other => 1.0

/-- A particle state as seen by the shape pass: position and velocity. -/
structure PState where
  pos : Vec3
  vel : Vec3

open Classical in
/-- The body of the inner loop of `ShapeManager.update` for one particle
and one shape: if the particle center is within the shape's collision
radius, reflect the velocity about the outward normal scaled by 0.8, and
push the position outward along the normal by 0.1; otherwise leave the
particle unchanged. -/
noncomputable def stepShape (st : PState) (s : Shape) : PState :=
  if st.pos.dist s.pos < collisionSize s then
    { pos := st.pos.add (Vec3.smul 0.1 (Vec3.normalize (st.pos.sub s.pos)))
    , vel := Vec3.smul 0.8 (st.vel.reflect (Vec3.normalize (st.pos.sub s.pos))) }
  else st

/-- The nested loops of `ShapeManager.update`: the outer loop walks the
shape list in order, the inner loop applies that shape's collision
response to every particle. -/
noncomputable def shapesPass : List Shape → List PState → List PState
  | [], ps => ps
  | s :: rest, ps => shapesPass rest (ps.map (fun st => stepShape st s))

/-- The cumulative effect of one shape pass on a single particle: a left
fold of the per-shape step over the shape list. -/
noncomputable def shapeFold (st : PState) (shapes : List Shape) : PState :=
  shapes.foldl stepShape st

/-- A unit box shape sitting at (0.5, 0, 0): collision radius 1. -/
def shapeRight : Shape :=
  ⟨⟨0.5, 0, 0⟩, ⟨1, 1, 1⟩, .box⟩

/-- A unit box shape sitting at (-0.5, 0, 0): collision radius 1. -/
def shapeLeft : Shape :=
  ⟨⟨-0.5, 0, 0⟩, ⟨1, 1, 1⟩, .box⟩

/-- A particle at the origin moving in +z, overlapping both boxes above. -/
def doubleOverlapParticle : PState :=
  ⟨⟨0, 0, 0⟩, ⟨0, 0, 1⟩⟩

/-- A unit box at the origin, for the push-out analysis. -/
def originBox : Shape :=
  ⟨⟨0, 0, 0⟩, ⟨1, 1, 1⟩, .box⟩

/-- A deeply penetrating particle at (0.5, 0, 0) inside the origin box. -/
def deepParticle : PState :=
  ⟨⟨0.5, 0, 0⟩, ⟨0, 0, 0⟩⟩

theorem Vec3.norm_axis (a : ℝ) : Vec3.norm ⟨a, 0, 0⟩ = |a| := by
  rw [Vec3.norm]
  show Real.sqrt (a ^ 2 + 0 ^ 2 + 0 ^ 2) = |a|
  rw [show a ^ 2 + 0 ^ 2 + 0 ^ 2 = a ^ 2 by ring, Real.sqrt_sq_eq_abs]

theorem Vec3.norm_smul (c : ℝ) (v : Vec3) :
    Vec3.norm (Vec3.smul c v) = |c| * Vec3.norm v := by
  rw [Vec3.smul, Vec3.norm, Vec3.norm]
  show Real.sqrt ((c * v.x) ^ 2 + (c * v.y) ^ 2 + (c * v.z) ^ 2) = _
  rw [show (c * v.x) ^ 2 + (c * v.y) ^ 2 + (c * v.z) ^ 2 =
      c ^ 2 * (v.x ^ 2 + v.y ^ 2 + v.z ^ 2) by ring,
    Real.sqrt_mul (sq_nonneg c), Real.sqrt_sq_eq_abs]

theorem integrate_vel (δ : ℚ) (p : Particle) :
    (integrate δ p).vx = p.vx ∧ (integrate δ p).vy = p.vy ∧ (integrate δ p).vz = p.vz :=
  ⟨rfl, rfl, rfl⟩

theorem applyGravity_zero (δ : ℚ) (p : Particle) : applyGravity 0 δ p = p := by
  simp [applyGravity]

/-- C1: starting from the origin at rest with gravity 9.8 and viscosity 0,
one tick with delta 0.1 that triggers no ground collision (the ground
plane lies below the integrated height) produces velocity.y = -0.98 and
position.y = -0.098 exactly: gravity acts on the velocity first, the
damping factor 1 - 0*delta leaves it unchanged, and the position is
integrated with the updated velocity. -/
theorem C1_first_tick_euler (w : ℚ) (r : RandDraws)
    (hng : groundLevel w < -(49/500)) :
    (particleTick ⟨w, 0, 98/10⟩ (1/10) r ⟨0, 0, 0, 0, 0, 0⟩).vy = -(49/50) ∧
    (particleTick ⟨w, 0, 98/10⟩ (1/10) r ⟨0, 0, 0, 0, 0, 0⟩).py = -(49/500) := by
  have h1 : integrate (1/10) (applyViscosity 0 (1/10)
      (applyGravity (98/10) (1/10) ⟨0, 0, 0, 0, 0, 0⟩)) =
      ⟨0, -(49/500), 0, 0, -(49/50), 0⟩ := by
    norm_num [integrate, applyViscosity, applyGravity]
  have h2 : groundCollide w ⟨0, -(49/500), 0, 0, -(49/50), 0⟩ =
      ⟨0, -(49/500), 0, 0, -(49/50), 0⟩ := by
    rw [groundCollide, if_neg]
    simp only
    linarith
  have h3 : wallCollide ⟨0, -(49/500), 0, 0, -(49/50), 0⟩ =
      ⟨0, -(49/500), 0, 0, -(49/50), 0⟩ := by
    norm_num [wallCollide, wallCollideX, wallCollideZ]
  have h4 : recycle r ⟨0, -(49/500), 0, 0, -(49/50), 0⟩ =
      ⟨0, -(49/500), 0, 0, -(49/50), 0⟩ := by
    norm_num [recycle]
  rw [particleTick, preRecycle, h1, h2, h3, h4]
  exact ⟨rfl, rfl⟩

/-- C3: the droplet ground plane is `(waterLevel - 0.5)*10 - 1` (offset
constant 1); on each tick a droplet whose integrated height is below it is
clamped to the plane with vertical velocity scaled by -0.3 and horizontal
velocity components scaled by 0.8, and a droplet at or above the plane is
left untouched by the ground-collision step. -/
theorem C3_droplet_ground_bounce (waterLevel g δ : ℚ) (r : RandDraws) (p q : Particle) :
    dropletGroundY waterLevel = (waterLevel - 1/2) * 10 - 1 ∧
    (q.py < dropletGroundY waterLevel →
      dropletGroundBounce waterLevel q =
        { q with py := dropletGroundY waterLevel
               , vy := q.vy * (-3/10)
               , vx := q.vx * (8/10)
               , vz := q.vz * (8/10) }) ∧
    (¬ q.py < dropletGroundY waterLevel → dropletGroundBounce waterLevel q = q) ∧
    dropletTick waterLevel g δ r p =
      dropletRecycle r (dropletGroundBounce waterLevel (integrate δ (applyGravity g δ p))) := by
  refine ⟨rfl, fun h => ?_, fun h => ?_, rfl⟩
  · rw [dropletGroundBounce, if_pos h]
  · rw [dropletGroundBounce, if_neg h]

theorem C3_droplet_ground_bounce_witness :
    ((-2 : ℚ) < dropletGroundY (1/2)) ∧
    dropletGroundBounce (1/2) ⟨0, -2, 0, 1, 1, 1⟩ = ⟨0, -1, 0, 8/10, -(3/10), 8/10⟩ := by
  have h := (C3_droplet_ground_bounce (1/2) 0 0 ⟨0, 0, 0, 0, 0, 0⟩
      ⟨0, 0, 0, 0, 0, 0⟩ ⟨0, -2, 0, 1, 1, 1⟩).2.1 (by norm_num [dropletGroundY])
  refine ⟨by norm_num [dropletGroundY], ?_⟩
  rw [h]
  norm_num [dropletGroundY]

theorem qabs_not_lt (a b : ℚ) (h1 : -b ≤ a) (h2 : a ≤ b) : ¬ b < |a| := by
  rw [not_lt, abs_le]
  exact ⟨h1, h2⟩

theorem speedSq_nonneg (p : Particle) : 0 ≤ speedSq p := by
  simp only [speedSq]
  positivity

theorem speedSq_integrate (δ : ℚ) (p : Particle) :
    speedSq (integrate δ p) = speedSq p := rfl

theorem speedSq_groundCollide_le (w : ℚ) (p : Particle) :
    speedSq (groundCollide w p) ≤ speedSq p := by
  rw [groundCollide]
  split
  · simp only [speedSq]
    nlinarith [sq_nonneg p.vx, sq_nonneg p.vy, sq_nonneg p.vz]
  · exact le_refl _

theorem speedSq_wallCollideX_le (p : Particle) :
    speedSq (wallCollideX p) ≤ speedSq p := by
  rw [wallCollideX]
  split
  · simp only [speedSq]
    nlinarith [sq_nonneg p.vx]
  · exact le_refl _

theorem speedSq_wallCollideZ_le (p : Particle) :
    speedSq (wallCollideZ p) ≤ speedSq p := by
  rw [wallCollideZ]
  split
  · simp only [speedSq]
    nlinarith [sq_nonneg p.vz]
  · exact le_refl _

theorem speedSq_applyViscosity (ν δ : ℚ) (p : Particle) :
    speedSq (applyViscosity ν δ p) = (1 - ν * δ) ^ 2 * speedSq p := by
  simp only [speedSq, applyViscosity]
  ring

theorem wallCollideX_px_le (p : Particle) : |(wallCollideX p).px| ≤ 10 := by
  rw [wallCollideX]
  split
  case isTrue h =>
    simp only [qsign]
    by_cases h0 : 0 < p.px
    · rw [if_pos h0]
      norm_num
    · rw [if_neg h0]
      by_cases h1 : p.px < 0
      · rw [if_pos h1]
        norm_num
      · rw [if_neg h1]
        norm_num
  case isFalse h => exact le_of_not_lt h

theorem wallCollideZ_pz_le (p : Particle) : |(wallCollideZ p).pz| ≤ 10 := by
  rw [wallCollideZ]
  split
  case isTrue h =>
    simp only [qsign]
    by_cases h0 : 0 < p.pz
    · rw [if_pos h0]
      norm_num
    · rw [if_neg h0]
      by_cases h1 : p.pz < 0
      · rw [if_pos h1]
        norm_num
      · rw [if_neg h1]
        norm_num
  case isFalse h => exact le_of_not_lt h

theorem wallCollideZ_px (p : Particle) : (wallCollideZ p).px = p.px := by
  rw [wallCollideZ]
  split <;> rfl

theorem wallCollide_px_le (p : Particle) : |(wallCollide p).px| ≤ 10 := by
  rw [wallCollide, wallCollideZ_px]
  exact wallCollideX_px_le p

theorem wallCollide_pz_le (p : Particle) : |(wallCollide p).pz| ≤ 10 :=
  wallCollideZ_pz_le _

/-- C10: after every particle tick the particle satisfies |x| ≤ 10 and
|z| ≤ 10, provided the recycle draws lie in [0, 1); a particle carried
past either wall at distance 10 is clamped to `sign * 10` with the
corresponding velocity component multiplied by -0.5, and a particle inside
the walls is unaffected by that wall check. -/
theorem C10_wall_confinement (P : SimParams) (δ : ℚ) (r : RandDraws) (p q : Particle)
    (h1 : 0 ≤ r.r1) (h1' : r.r1 < 1) (h3 : 0 ≤ r.r3) (h3' : r.r3 < 1) :
    |(particleTick P δ r p).px| ≤ 10 ∧ |(particleTick P δ r p).pz| ≤ 10 ∧
    (10 < |q.px| →
      wallCollideX q = { q with px := qsign q.px * 10, vx := q.vx * (-1/2) }) ∧
    (¬ 10 < |q.px| → wallCollideX q = q) ∧
    (10 < |q.pz| →
      wallCollideZ q = { q with pz := qsign q.pz * 10, vz := q.vz * (-1/2) }) ∧
    (¬ 10 < |q.pz| → wallCollideZ q = q) := by
  refine ⟨?_, ?_,
    fun h => by rw [wallCollideX, if_pos h],
    fun h => by rw [wallCollideX, if_neg h],
    fun h => by rw [wallCollideZ, if_pos h],
    fun h => by rw [wallCollideZ, if_neg h]⟩
  · rw [particleTick, recycle]
    split
    · simp only [recycleTarget]
      rw [abs_le]
      constructor <;> linarith
    · rw [preRecycle]
      exact wallCollide_px_le _
  · rw [particleTick, recycle]
    split
    · simp only [recycleTarget]
      rw [abs_le]
      constructor <;> linarith
    · rw [preRecycle]
      exact wallCollide_pz_le _

theorem C10_wall_confinement_witness :
    ((0 : ℚ) ≤ 0 ∧ (0 : ℚ) < 1) ∧
    (|(particleTick ⟨1/2, 0, 0⟩ 1 ⟨0, 0, 0, 0, 0, 0⟩ ⟨11, 5, 0, 0, 0, 0⟩).px| ≤ 10 ∧
     |(particleTick ⟨1/2, 0, 0⟩ 1 ⟨0, 0, 0, 0, 0, 0⟩ ⟨11, 5, 0, 0, 0, 0⟩).pz| ≤ 10 ∧
     (10 < |(Particle.mk 11 5 0 0 0 0).px| →
       wallCollideX ⟨11, 5, 0, 0, 0, 0⟩ =
         { Particle.mk 11 5 0 0 0 0 with
             px := qsign (Particle.mk 11 5 0 0 0 0).px * 10
           , vx := (Particle.mk 11 5 0 0 0 0).vx * (-1/2) }) ∧
     (¬ 10 < |(Particle.mk 11 5 0 0 0 0).px| →
       wallCollideX ⟨11, 5, 0, 0, 0, 0⟩ = ⟨11, 5, 0, 0, 0, 0⟩) ∧
     (10 < |(Particle.mk 11 5 0 0 0 0).pz| →
       wallCollideZ ⟨11, 5, 0, 0, 0, 0⟩ =
         { Particle.mk 11 5 0 0 0 0 with
             pz := qsign (Particle.mk 11 5 0 0 0 0).pz * 10
           , vz := (Particle.mk 11 5 0 0 0 0).vz * (-1/2) }) ∧
     (¬ 10 < |(Particle.mk 11 5 0 0 0 0).pz| →
       wallCollideZ ⟨11, 5, 0, 0, 0, 0⟩ = ⟨11, 5, 0, 0, 0, 0⟩)) :=
  ⟨⟨by norm_num, by norm_num⟩,
   C10_wall_confinement ⟨1/2, 0, 0⟩ 1 ⟨0, 0, 0, 0, 0, 0⟩ ⟨11, 5, 0, 0, 0, 0⟩
     ⟨11, 5, 0, 0, 0, 0⟩ (by norm_num) (by norm_num) (by norm_num) (by norm_num)⟩

/-- C4 counterexample: with viscosity 30, gravity 0 and delta 0.1 (all
within the claim's hypotheses: viscosity > 0, gravity = 0, delta ≥ 0) the
damping factor 1 - viscosity*delta = -2 is applied unclamped, so a
particle of unit speed leaves the tick with squared speed 4 — the tick
amplified its speed, refuting the claim that the factor is clamped to
[0, 1] and that speed never increases. -/
theorem C4_damping_counterexample :
    (0 : ℚ) < 30 ∧ (0 : ℚ) ≤ 1/10 ∧
    speedSq ⟨0, 1, 0, 1, 0, 0⟩ = 1 ∧
    speedSq (particleTick ⟨1/2, 30, 0⟩ (1/10) ⟨0, 0, 0, 0, 0, 0⟩ ⟨0, 1, 0, 1, 0, 0⟩) = 4 := by
  refine ⟨by norm_num, by norm_num, by norm_num [speedSq], ?_⟩
  have h1 : integrate (1/10) (applyViscosity 30 (1/10)
      (applyGravity 0 (1/10) ⟨0, 1, 0, 1, 0, 0⟩)) =
      ⟨-(1/5), 1, 0, -2, 0, 0⟩ := by
    norm_num [integrate, applyViscosity, applyGravity]
  have h2 : groundCollide (1/2) ⟨-(1/5), 1, 0, -2, 0, 0⟩ =
      ⟨-(1/5), 1, 0, -2, 0, 0⟩ := by
    rw [groundCollide, if_neg]
    norm_num [groundLevel]
  have h3 : wallCollide ⟨-(1/5), 1, 0, -2, 0, 0⟩ = ⟨-(1/5), 1, 0, -2, 0, 0⟩ := by
    rw [wallCollide, wallCollideX,
      if_neg (qabs_not_lt _ _ (by norm_num) (by norm_num)), wallCollideZ,
      if_neg (qabs_not_lt _ _ (by norm_num) (by norm_num))]
  have h4 : recycle ⟨0, 0, 0, 0, 0, 0⟩ ⟨-(1/5), 1, 0, -2, 0, 0⟩ =
      ⟨-(1/5), 1, 0, -2, 0, 0⟩ := by
    norm_num [recycle]
  rw [particleTick, preRecycle, h1, h2, h3, h4]
  norm_num [speedSq]

/-- C4 amended: with viscosity > 0, gravity 0 and delta ≥ 0, a particle's
speed after the tick is at most its speed before, provided
viscosity*delta ≤ 2 — the code applies the factor 1 - viscosity*delta
without any clamping, so only for viscosity*delta ≤ 2 does the factor lie
in [-1, 1] and not amplify — and provided the tick does not recycle the
particle (a recycled particle's velocity is freshly sampled, unrelated to
its previous speed). Stated on squared speeds, which is equivalent. -/
theorem C4_damping_amended (P : SimParams) (δ : ℚ) (r : RandDraws) (p : Particle)
    (hν : 0 < P.viscosity) (hg : P.gravity = 0) (hδ : 0 ≤ δ)
    (hbound : P.viscosity * δ ≤ 2)
    (hnorec : ¬ (preRecycle P δ p).py < -10) :
    speedSq (particleTick P δ r p) ≤ speedSq p := by
  have hfac : (1 - P.viscosity * δ) ^ 2 ≤ 1 := by
    have h0 : 0 ≤ P.viscosity * δ := mul_nonneg hν.le hδ
    nlinarith
  have hstep : particleTick P δ r p = preRecycle P δ p := by
    rw [particleTick, recycle, if_neg hnorec]
  rw [hstep, preRecycle, hg, applyGravity_zero]
  calc speedSq (wallCollideZ (wallCollideX (groundCollide P.waterLevel
          (integrate δ (applyViscosity P.viscosity δ p)))))
      ≤ speedSq (wallCollideX (groundCollide P.waterLevel
          (integrate δ (applyViscosity P.viscosity δ p)))) :=
        speedSq_wallCollideZ_le _
    _ ≤ speedSq (groundCollide P.waterLevel
          (integrate δ (applyViscosity P.viscosity δ p))) :=
        speedSq_wallCollideX_le _
    _ ≤ speedSq (integrate δ (applyViscosity P.viscosity δ p)) :=
        speedSq_groundCollide_le _ _
    _ = (1 - P.viscosity * δ) ^ 2 * speedSq p := by
        rw [speedSq_integrate, speedSq_applyViscosity]
    _ ≤ 1 * speedSq p := by
        exact mul_le_mul_of_nonneg_right hfac (speedSq_nonneg p)
    _ = speedSq p := one_mul _

theorem C4_damping_amended_witness :
    ((0 : ℚ) < 1 ∧ (0 : ℚ) ≤ 1 ∧ (1 : ℚ) * 1 ≤ 2 ∧
     ¬ (preRecycle ⟨1/2, 1, 0⟩ 1 ⟨0, 5, 0, 1, 0, 0⟩).py < -10) ∧
    speedSq (particleTick ⟨1/2, 1, 0⟩ 1 ⟨0, 0, 0, 0, 0, 0⟩ ⟨0, 5, 0, 1, 0, 0⟩) ≤
      speedSq ⟨0, 5, 0, 1, 0, 0⟩ := by
  have hnorec : ¬ (preRecycle ⟨1/2, 1, 0⟩ 1 ⟨0, 5, 0, 1, 0, 0⟩).py < -10 := by
    norm_num [preRecycle, wallCollide, wallCollideX, wallCollideZ,
      groundCollide, groundLevel, integrate, applyViscosity, applyGravity]
  exact ⟨⟨by norm_num, by norm_num, by norm_num, hnorec⟩,
    C4_damping_amended ⟨1/2, 1, 0⟩ 1 ⟨0, 0, 0, 0, 0, 0⟩ ⟨0, 5, 0, 1, 0, 0⟩
      (by norm_num) rfl (by norm_num) (by norm_num) hnorec⟩

/-- C6 counterexample: the recycle branch maps the legal draw 1/2 to
height 12.5, which lies outside [5, 10), the interval the spawn height
draw ranges over, so the recycled Y coordinate is not drawn from the same
range as the spawn Y coordinate; a full tick on a particle fallen below
-10 indeed lands it at height 12.5. -/
theorem C6_recycle_range_counterexample :
    ((0 : ℚ) ≤ 1/2 ∧ (1/2 : ℚ) < 1) ∧
    (recycleTarget ⟨1/2, 1/2, 1/2, 1/2, 1/2, 1/2⟩).py = 25/2 ∧
    (spawnParticle ⟨1/2, 1/2, 1/2, 1/2, 1/2, 1/2⟩).py = 15/2 ∧
    ¬ ((recycleTarget ⟨1/2, 1/2, 1/2, 1/2, 1/2, 1/2⟩).py < 10) ∧
    (particleTick ⟨-1, 0, 0⟩ 0 ⟨1/2, 1/2, 1/2, 1/2, 1/2, 1/2⟩ ⟨0, -11, 0, 0, 0, 0⟩).py = 25/2 := by
  refine ⟨⟨by norm_num, by norm_num⟩, by norm_num [recycleTarget],
    by norm_num [spawnParticle], by norm_num [recycleTarget], ?_⟩
  norm_num [particleTick, preRecycle, recycle, recycleTarget, wallCollide,
    wallCollideX, wallCollideZ, groundCollide, groundLevel, integrate,
    applyViscosity, applyGravity]

/-- C6 amended: whenever position.y falls below -10, the tick resets the
particle; the recycled X, Z and velocity components use the same formulas
as the initial spawn, but the recycled height is drawn from [10, 15) via
`r*5 + 10` while the spawn height is drawn from [5, 10) via `r*5 + 5` —
the two ranges differ. -/
theorem C6_recycle_amended (r : RandDraws)
    (h0 : 0 ≤ r.r2) (h1 : r.r2 < 1) :
    (∀ q : Particle, q.py < -10 → recycle r q = recycleTarget r) ∧
    (∀ q : Particle, ¬ q.py < -10 → recycle r q = q) ∧
    (recycleTarget r).px = (spawnParticle r).px ∧
    (recycleTarget r).pz = (spawnParticle r).pz ∧
    (recycleTarget r).vx = (spawnParticle r).vx ∧
    (recycleTarget r).vy = (spawnParticle r).vy ∧
    (recycleTarget r).vz = (spawnParticle r).vz ∧
    (recycleTarget r).py = r.r2 * 5 + 10 ∧
    (spawnParticle r).py = r.r2 * 5 + 5 ∧
    (10 ≤ (recycleTarget r).py ∧ (recycleTarget r).py < 15) ∧
    (5 ≤ (spawnParticle r).py ∧ (spawnParticle r).py < 10) := by
  refine ⟨fun q h => by rw [recycle, if_pos h], fun q h => by rw [recycle, if_neg h],
    rfl, rfl, rfl, rfl, rfl, rfl, rfl, ⟨?_, ?_⟩, ⟨?_, ?_⟩⟩ <;>
    simp only [recycleTarget, spawnParticle] <;> linarith

theorem C6_recycle_amended_witness :
    ((0 : ℚ) ≤ 1/2 ∧ (1/2 : ℚ) < 1) ∧
    ((∀ q : Particle, q.py < -10 → recycle ⟨1/2, 1/2, 1/2, 1/2, 1/2, 1/2⟩ q =
        recycleTarget ⟨1/2, 1/2, 1/2, 1/2, 1/2, 1/2⟩) ∧
     (∀ q : Particle, ¬ q.py < -10 → recycle ⟨1/2, 1/2, 1/2, 1/2, 1/2, 1/2⟩ q = q) ∧
     (recycleTarget ⟨1/2, 1/2, 1/2, 1/2, 1/2, 1/2⟩).px =
       (spawnParticle ⟨1/2, 1/2, 1/2, 1/2, 1/2, 1/2⟩).px ∧
     (recycleTarget ⟨1/2, 1/2, 1/2, 1/2, 1/2, 1/2⟩).pz =
       (spawnParticle ⟨1/2, 1/2, 1/2, 1/2, 1/2, 1/2⟩).pz ∧
     (recycleTarget ⟨1/2, 1/2, 1/2, 1/2, 1/2, 1/2⟩).vx =
       (spawnParticle ⟨1/2, 1/2, 1/2, 1/2, 1/2, 1/2⟩).vx ∧
     (recycleTarget ⟨1/2, 1/2, 1/2, 1/2, 1/2, 1/2⟩).vy =
       (spawnParticle ⟨1/2, 1/2, 1/2, 1/2, 1/2, 1/2⟩).vy ∧
     (recycleTarget ⟨1/2, 1/2, 1/2, 1/2, 1/2, 1/2⟩).vz =
       (spawnParticle ⟨1/2, 1/2, 1/2, 1/2, 1/2, 1/2⟩).vz ∧
     (recycleTarget ⟨1/2, 1/2, 1/2, 1/2, 1/2, 1/2⟩).py = (1/2 : ℚ) * 5 + 10 ∧
     (spawnParticle ⟨1/2, 1/2, 1/2, 1/2, 1/2, 1/2⟩).py = (1/2 : ℚ) * 5 + 5 ∧
     (10 ≤ (recycleTarget ⟨1/2, 1/2, 1/2, 1/2, 1/2, 1/2⟩).py ∧
      (recycleTarget ⟨1/2, 1/2, 1/2, 1/2, 1/2, 1/2⟩).py < 15) ∧
     (5 ≤ (spawnParticle ⟨1/2, 1/2, 1/2, 1/2, 1/2, 1/2⟩).py ∧
      (spawnParticle ⟨1/2, 1/2, 1/2, 1/2, 1/2, 1/2⟩).py < 10)) :=
  ⟨⟨by norm_num, by norm_num⟩,
   C6_recycle_amended ⟨1/2, 1/2, 1/2, 1/2, 1/2, 1/2⟩ (by norm_num) (by norm_num)⟩

/-- C2: a WaveField tick first advances simTime by delta * waveSpeed and
then writes every vertex's height as the rest height plus the three-term
superposition 0.1*sin(x*0.5 + t*2.0) + 0.08*cos(z*0.3 + t*1.5) +
0.05*sin((x+z)*0.4 + t*2.5) evaluated at the vertex's rest x and z and
the advanced time t, carrying the vertex's current x and z over
unchanged. -/
theorem C2_wave_superposition (w δ : ℝ) (f : WaveField) (i : ℕ) (o c : Vec3)
    (ho : f.rest[i]? = some o) (hc : f.curr[i]? = some c) :
    (waveTick w δ f).simTime = f.simTime + δ * w ∧
    (waveTick w δ f).curr[i]? = some ⟨c.x,
      o.y + 0.1 * Real.sin (o.x * 0.5 + (f.simTime + δ * w) * 2.0)
          + 0.08 * Real.cos (o.z * 0.3 + (f.simTime + δ * w) * 1.5)
          + 0.05 * Real.sin ((o.x + o.z) * 0.4 + (f.simTime + δ * w) * 2.5),
      c.z⟩ := by
  refine ⟨rfl, ?_⟩
  show (List.zipWith
      (fun o c => ⟨c.x, waveHeight o (f.simTime + δ * w), c.z⟩ : Vec3 → Vec3 → Vec3)
      f.rest f.curr)[i]? = _
  rw [List.getElem?_zipWith, ho, hc]
  simp only [Vec3.mk.injEq, Option.some.injEq, waveHeight]
  exact ⟨trivial, by ring, trivial⟩

theorem C2_wave_superposition_witness :
    ((⟨0, [⟨2, 0, 3⟩], [⟨2, 0, 3⟩]⟩ : WaveField).rest[0]? = some ⟨2, 0, 3⟩ ∧
     (⟨0, [⟨2, 0, 3⟩], [⟨2, 0, 3⟩]⟩ : WaveField).curr[0]? = some ⟨2, 0, 3⟩) ∧
    ((waveTick 1 1 ⟨0, [⟨2, 0, 3⟩], [⟨2, 0, 3⟩]⟩).simTime = 0 + 1 * 1 ∧
     (waveTick 1 1 ⟨0, [⟨2, 0, 3⟩], [⟨2, 0, 3⟩]⟩).curr[0]? = some ⟨2,
       0 + 0.1 * Real.sin (2 * 0.5 + (0 + 1 * 1) * 2.0)
         + 0.08 * Real.cos (3 * 0.3 + (0 + 1 * 1) * 1.5)
         + 0.05 * Real.sin ((2 + 3) * 0.4 + (0 + 1 * 1) * 2.5),
       3⟩) :=
  ⟨⟨rfl, rfl⟩,
   C2_wave_superposition 1 1 ⟨0, [⟨2, 0, 3⟩], [⟨2, 0, 3⟩]⟩ 0 ⟨2, 0, 3⟩ ⟨2, 0, 3⟩ rfl rfl⟩

/-- C7: the tick writes only the Y component of each current vertex, so
after any sequence of ticks every current vertex still has the X and Z of
its rest vertex: the rest buffer itself never changes, the current buffer
keeps its length, and X/Z alignment with the rest vertices is preserved
forever. -/
theorem C7_rest_plane_invariance (l : List (ℝ × ℝ)) (f : WaveField)
    (hlen : f.curr.length = f.rest.length)
    (halign : ∀ (i : ℕ) (o c : Vec3), f.rest[i]? = some o → f.curr[i]? = some c →
      c.x = o.x ∧ c.z = o.z) :
    (runWaveTicks l f).rest = f.rest ∧
    (runWaveTicks l f).curr.length = f.rest.length ∧
    ∀ (i : ℕ) (o c : Vec3), (runWaveTicks l f).rest[i]? = some o →
      (runWaveTicks l f).curr[i]? = some c → c.x = o.x ∧ c.z = o.z := by
  induction l generalizing f with
  | nil => exact ⟨rfl, hlen, halign⟩
  | cons hd tl ih =>
    obtain ⟨w, d⟩ := hd
    rw [runWaveTicks]
    have hlen' : (waveTick w d f).curr.length = (waveTick w d f).rest.length := by
      simp [waveTick, hlen]
    have halign' : ∀ (i : ℕ) (o c : Vec3), (waveTick w d f).rest[i]? = some o →
        (waveTick w d f).curr[i]? = some c → c.x = o.x ∧ c.z = o.z := by
      intro i o c ho hc
      have ho' : f.rest[i]? = some o := ho
      show c.x = o.x ∧ c.z = o.z
      have hc' : (List.zipWith
          (fun o c => ⟨c.x, waveHeight o (f.simTime + d * w), c.z⟩ : Vec3 → Vec3 → Vec3)
          f.rest f.curr)[i]? = some c := hc
      rw [List.getElem?_zipWith, ho'] at hc'
      cases hcc : f.curr[i]? with
      | none =>
        rw [hcc] at hc'
        exact absurd hc' (by simp)
      | some c0 =>
        rw [hcc] at hc'
        simp only [Option.some.injEq] at hc'
        have hxz := halign i o c0 ho' hcc
        rw [← hc']
        exact ⟨hxz.1, hxz.2⟩
    exact ih (waveTick w d f) hlen' halign'

theorem C7_rest_plane_invariance_witness :
    (((⟨0, [⟨1, 2, 3⟩], [⟨1, 2, 3⟩]⟩ : WaveField).curr.length =
        (⟨0, [⟨1, 2, 3⟩], [⟨1, 2, 3⟩]⟩ : WaveField).rest.length) ∧
     (∀ (i : ℕ) (o c : Vec3), (⟨0, [⟨1, 2, 3⟩], [⟨1, 2, 3⟩]⟩ : WaveField).rest[i]? = some o →
        (⟨0, [⟨1, 2, 3⟩], [⟨1, 2, 3⟩]⟩ : WaveField).curr[i]? = some c →
        c.x = o.x ∧ c.z = o.z)) ∧
    ((runWaveTicks [(1, 1), (2, 3)] ⟨0, [⟨1, 2, 3⟩], [⟨1, 2, 3⟩]⟩).rest =
        (⟨0, [⟨1, 2, 3⟩], [⟨1, 2, 3⟩]⟩ : WaveField).rest ∧
     (runWaveTicks [(1, 1), (2, 3)] ⟨0, [⟨1, 2, 3⟩], [⟨1, 2, 3⟩]⟩).curr.length =
        (⟨0, [⟨1, 2, 3⟩], [⟨1, 2, 3⟩]⟩ : WaveField).rest.length ∧
     ∀ (i : ℕ) (o c : Vec3),
        (runWaveTicks [(1, 1), (2, 3)] ⟨0, [⟨1, 2, 3⟩], [⟨1, 2, 3⟩]⟩).rest[i]? = some o →
        (runWaveTicks [(1, 1), (2, 3)] ⟨0, [⟨1, 2, 3⟩], [⟨1, 2, 3⟩]⟩).curr[i]? = some c →
        c.x = o.x ∧ c.z = o.z) := by
  have halign : ∀ (i : ℕ) (o c : Vec3),
      (⟨0, [⟨1, 2, 3⟩], [⟨1, 2, 3⟩]⟩ : WaveField).rest[i]? = some o →
      (⟨0, [⟨1, 2, 3⟩], [⟨1, 2, 3⟩]⟩ : WaveField).curr[i]? = some c →
      c.x = o.x ∧ c.z = o.z := by
    intro i o c ho hc
    have : some o = some c := ho.symm.trans hc
    injection this with h
    exact ⟨h ▸ rfl, h ▸ rfl⟩
  exact ⟨⟨rfl, halign⟩,
    C7_rest_plane_invariance [(1, 1), (2, 3)] ⟨0, [⟨1, 2, 3⟩], [⟨1, 2, 3⟩]⟩ rfl halign⟩

/-- C9: simTime accumulates exactly the per-tick increments delta *
waveSpeed, each read at its own tick: over any sequence of ticks the final
simTime is the initial one plus the sum of the per-tick products, so N
uniform ticks of delta d under waveSpeed w accumulate exactly N*d*w and a
waveSpeed change between ticks affects only later increments. -/
theorem C9_simTime_accumulation :
    (∀ (l : List (ℝ × ℝ)) (f : WaveField),
      (runWaveTicks l f).simTime = f.simTime + (l.map fun p => p.2 * p.1).sum) ∧
    (∀ (N : ℕ) (w d : ℝ) (f : WaveField),
      (runWaveTicks (List.replicate N (w, d)) f).simTime = f.simTime + N * (d * w)) := by
  have key : ∀ (l : List (ℝ × ℝ)) (f : WaveField),
      (runWaveTicks l f).simTime = f.simTime + (l.map fun p => p.2 * p.1).sum := by
    intro l
    induction l with
    | nil =>
      intro f
      simp [runWaveTicks]
    | cons hd tl ih =>
      intro f
      obtain ⟨w, d⟩ := hd
      rw [runWaveTicks, ih]
      show (waveTick w d f).simTime + _ = _
      rw [waveTick]
      simp only [List.map_cons, List.sum_cons]
      ring
  refine ⟨key, fun N w d f => ?_⟩
  rw [key]
  rw [List.map_replicate, List.sum_replicate, nsmul_eq_mul]

theorem C1_first_tick_euler_witness :
    groundLevel 0 < -(49/500) ∧
    ((particleTick ⟨0, 0, 98/10⟩ (1/10) ⟨0, 0, 0, 0, 0, 0⟩ ⟨0, 0, 0, 0, 0, 0⟩).vy = -(49/50) ∧
     (particleTick ⟨0, 0, 98/10⟩ (1/10) ⟨0, 0, 0, 0, 0, 0⟩ ⟨0, 0, 0, 0, 0, 0⟩).py = -(49/500)) :=
  ⟨by norm_num [groundLevel],
   C1_first_tick_euler 0 ⟨0, 0, 0, 0, 0, 0⟩ (by norm_num [groundLevel])⟩

theorem shapesPass_getElem (shapes : List Shape) (ps : List PState) (i : ℕ) :
    (shapesPass shapes ps)[i]? = (ps[i]?).map (fun st => shapeFold st shapes) := by
  induction shapes generalizing ps with
  | nil =>
    show ps[i]? = _
    cases ps[i]? <;> rfl
  | cons s rest ih =>
    rw [shapesPass, ih, List.getElem?_map]
    cases ps[i]? <;> rfl

theorem stepShape_doubleOverlap_right :
    stepShape doubleOverlapParticle shapeRight = ⟨⟨-0.1, 0, 0⟩, ⟨0, 0, 0.8⟩⟩ := by
  have hsub : doubleOverlapParticle.pos.sub shapeRight.pos = ⟨-0.5, 0, 0⟩ := by
    simp [doubleOverlapParticle, shapeRight, Vec3.sub]
  have habs : |(-0.5 : ℝ)| = 0.5 := by
    rw [abs_of_neg (by norm_num : (-0.5:ℝ) < 0)]
    norm_num
  have hdist : Vec3.dist doubleOverlapParticle.pos shapeRight.pos = 0.5 := by
    rw [Vec3.dist, hsub, Vec3.norm_axis, habs]
  have hsize : collisionSize shapeRight = 1 := by
    simp [collisionSize, shapeRight]
  have hn : Vec3.normalize (doubleOverlapParticle.pos.sub shapeRight.pos) =
      ⟨-1, 0, 0⟩ := by
    rw [hsub, Vec3.normalize, if_neg (by rw [Vec3.norm_axis, habs]; norm_num),
      Vec3.norm_axis, habs]
    simp [Vec3.smul]
    norm_num
  rw [stepShape, if_pos (by rw [hdist, hsize]; norm_num), hn]
  simp only [doubleOverlapParticle, Vec3.add, Vec3.smul, Vec3.reflect, Vec3.dot,
    Vec3.sub, PState.mk.injEq, Vec3.mk.injEq]
  norm_num

theorem stepShape_doubleOverlap_left :
    stepShape (⟨⟨-0.1, 0, 0⟩, ⟨0, 0, 0.8⟩⟩ : PState) shapeLeft =
      ⟨⟨0, 0, 0⟩, ⟨0, 0, 0.64⟩⟩ := by
  have hsub : (⟨⟨-0.1, 0, 0⟩, ⟨0, 0, 0.8⟩⟩ : PState).pos.sub shapeLeft.pos =
      ⟨0.4, 0, 0⟩ := by
    simp [shapeLeft, Vec3.sub]
    norm_num
  have habs : |(0.4 : ℝ)| = 0.4 :=
    abs_of_pos (by norm_num : (0:ℝ) < 0.4)
  have hdist : Vec3.dist (⟨⟨-0.1, 0, 0⟩, ⟨0, 0, 0.8⟩⟩ : PState).pos shapeLeft.pos =
      0.4 := by
    rw [Vec3.dist, hsub, Vec3.norm_axis, habs]
  have hsize : collisionSize shapeLeft = 1 := by
    simp [collisionSize, shapeLeft]
  have hn : Vec3.normalize ((⟨⟨-0.1, 0, 0⟩, ⟨0, 0, 0.8⟩⟩ : PState).pos.sub shapeLeft.pos) =
      ⟨1, 0, 0⟩ := by
    rw [hsub, Vec3.normalize, if_neg (by rw [Vec3.norm_axis, habs]; norm_num),
      Vec3.norm_axis, habs]
    simp [Vec3.smul]
    norm_num
  rw [stepShape, if_pos (by rw [hdist, hsize]; norm_num), hn]
  simp only [Vec3.add, Vec3.smul, Vec3.reflect, Vec3.dot, Vec3.sub,
    PState.mk.injEq, Vec3.mk.injEq]
  norm_num

/-- C5 counterexample: a particle at the origin overlaps both unit boxes
at (0.5,0,0) and (-0.5,0,0) in the same tick, yet the pass does not stop
at the first colliding shape: the result of processing both shapes
differs from the first shape's correction alone (final vertical-axis
speed 0.64 versus 0.8), so the remaining overlapping shape did contribute
a velocity reflection and push-out. -/
theorem C5_first_wins_counterexample :
    Vec3.dist doubleOverlapParticle.pos shapeRight.pos < collisionSize shapeRight ∧
    Vec3.dist doubleOverlapParticle.pos shapeLeft.pos < collisionSize shapeLeft ∧
    shapeFold doubleOverlapParticle [shapeRight, shapeLeft] ≠
      stepShape doubleOverlapParticle shapeRight := by
  have hsubR : doubleOverlapParticle.pos.sub shapeRight.pos = ⟨-0.5, 0, 0⟩ := by
    simp [doubleOverlapParticle, shapeRight, Vec3.sub]
  have hsubL : doubleOverlapParticle.pos.sub shapeLeft.pos = ⟨0.5, 0, 0⟩ := by
    simp [doubleOverlapParticle, shapeLeft, Vec3.sub]
  have hdistR : Vec3.dist doubleOverlapParticle.pos shapeRight.pos = 0.5 := by
    rw [Vec3.dist, hsubR, Vec3.norm_axis, abs_of_neg (by norm_num : (-0.5:ℝ) < 0)]
    norm_num
  have hdistL : Vec3.dist doubleOverlapParticle.pos shapeLeft.pos = 0.5 := by
    rw [Vec3.dist, hsubL, Vec3.norm_axis, abs_of_pos (by norm_num : (0:ℝ) < 0.5)]
  have hfold : shapeFold doubleOverlapParticle [shapeRight, shapeLeft] =
      ⟨⟨0, 0, 0⟩, ⟨0, 0, 0.64⟩⟩ := by
    show stepShape (stepShape doubleOverlapParticle shapeRight) shapeLeft = _
    rw [stepShape_doubleOverlap_right, stepShape_doubleOverlap_left]
  have hsizeR : collisionSize shapeRight = 1 := by simp [collisionSize, shapeRight]
  have hsizeL : collisionSize shapeLeft = 1 := by simp [collisionSize, shapeLeft]
  refine ⟨by rw [hdistR, hsizeR]; norm_num,
    by rw [hdistL, hsizeL]; norm_num, ?_⟩
  rw [hfold, stepShape_doubleOverlap_right]
  intro h
  have hz := congrArg (fun st : PState => st.vel.z) h
  norm_num at hz

/-- C5 amended: the shape pass applies a correction from every shape whose
collision test succeeds against the particle's current state, walking the
shape list in stable iteration order — the per-particle effect is the left
fold of the per-shape step over the shape list, and a particle overlapping
two shapes can receive both corrections in one tick, as the concrete
double-overlap configuration shows. -/
theorem C5_all_overlaps_corrected :
    (∀ (shapes : List Shape) (ps : List PState) (i : ℕ),
      (shapesPass shapes ps)[i]? = (ps[i]?).map (fun st => shapeFold st shapes)) ∧
    (∀ (st : PState) (s : Shape) (rest : List Shape),
      shapeFold st (s :: rest) = shapeFold (stepShape st s) rest) ∧
    Vec3.dist doubleOverlapParticle.pos shapeRight.pos < collisionSize shapeRight ∧
    Vec3.dist (stepShape doubleOverlapParticle shapeRight).pos shapeLeft.pos <
      collisionSize shapeLeft ∧
    (shapeFold doubleOverlapParticle [shapeRight, shapeLeft]).vel.z = 0.64 ∧
    (stepShape doubleOverlapParticle shapeRight).vel.z = 0.8 := by
  have hdistR : Vec3.dist doubleOverlapParticle.pos shapeRight.pos = 0.5 := by
    have hsubR : doubleOverlapParticle.pos.sub shapeRight.pos = ⟨-0.5, 0, 0⟩ := by
      simp [doubleOverlapParticle, shapeRight, Vec3.sub]
    rw [Vec3.dist, hsubR, Vec3.norm_axis, abs_of_neg (by norm_num : (-0.5:ℝ) < 0)]
    norm_num
  have hdist2 : Vec3.dist (stepShape doubleOverlapParticle shapeRight).pos
      shapeLeft.pos = 0.4 := by
    rw [stepShape_doubleOverlap_right]
    have hsub2 : (⟨⟨-0.1, 0, 0⟩, ⟨0, 0, 0.8⟩⟩ : PState).pos.sub shapeLeft.pos =
        ⟨0.4, 0, 0⟩ := by
      simp [shapeLeft, Vec3.sub]
      norm_num
    rw [Vec3.dist, hsub2, Vec3.norm_axis, abs_of_pos (by norm_num : (0:ℝ) < 0.4)]
  have hsizeR : collisionSize shapeRight = 1 := by simp [collisionSize, shapeRight]
  have hsizeL : collisionSize shapeLeft = 1 := by simp [collisionSize, shapeLeft]
  refine ⟨shapesPass_getElem, fun st s rest => rfl,
    by rw [hdistR, hsizeR]; norm_num,
    by rw [hdist2, hsizeL]; norm_num, ?_, ?_⟩
  · show (stepShape (stepShape doubleOverlapParticle shapeRight) shapeLeft).vel.z = _
    rw [stepShape_doubleOverlap_right, stepShape_doubleOverlap_left]
  · rw [stepShape_doubleOverlap_right]

/-- C8 amended: when a shape collision is detected at positive distance d
from the shape center, the push-out moves the particle exactly 0.1 farther
from the center along the outward normal — the corrected distance is
d + 0.1, which does not in general reach the shape's collision radius, so
penetration deeper than 0.1 survives the resolution. -/
theorem C8_pushout_amended (s : Shape) (st : PState)
    (h0 : 0 < Vec3.dist st.pos s.pos)
    (h1 : Vec3.dist st.pos s.pos < collisionSize s) :
    Vec3.dist (stepShape st s).pos s.pos = Vec3.dist st.pos s.pos + 0.1 := by
  have hd : Vec3.dist st.pos s.pos = (st.pos.sub s.pos).norm := rfl
  have hdpos : 0 < (st.pos.sub s.pos).norm := by rw [hd] at h0; exact h0
  have hne : (st.pos.sub s.pos).norm ≠ 0 := ne_of_gt hdpos
  rw [stepShape, if_pos h1]
  show Vec3.dist (st.pos.add (Vec3.smul 0.1 (Vec3.normalize (st.pos.sub s.pos)))) s.pos = _
  rw [Vec3.normalize, if_neg hne]
  have key : (st.pos.add (Vec3.smul 0.1
      (Vec3.smul (1 / (st.pos.sub s.pos).norm) (st.pos.sub s.pos)))).sub s.pos =
      Vec3.smul (1 + 0.1 * (1 / (st.pos.sub s.pos).norm)) (st.pos.sub s.pos) := by
    simp only [Vec3.add, Vec3.sub, Vec3.smul, Vec3.mk.injEq]
    refine ⟨by ring, by ring, by ring⟩
  rw [Vec3.dist, key, Vec3.norm_smul]
  have hpos : (0:ℝ) < 1 + 0.1 * (1 / (st.pos.sub s.pos).norm) := by
    have h1d : (0:ℝ) < 1 / (st.pos.sub s.pos).norm := by positivity
    linarith
  rw [abs_of_pos hpos, hd]
  field_simp

theorem C8_pushout_amended_witness :
    (0 < Vec3.dist deepParticle.pos originBox.pos ∧
     Vec3.dist deepParticle.pos originBox.pos < collisionSize originBox) ∧
    Vec3.dist (stepShape deepParticle originBox).pos originBox.pos =
      Vec3.dist deepParticle.pos originBox.pos + 0.1 := by
  have hsub : deepParticle.pos.sub originBox.pos = ⟨0.5, 0, 0⟩ := by
    simp [deepParticle, originBox, Vec3.sub]
  have hdist : Vec3.dist deepParticle.pos originBox.pos = 0.5 := by
    rw [Vec3.dist, hsub, Vec3.norm_axis, abs_of_pos (by norm_num : (0:ℝ) < 0.5)]
  have hsize : collisionSize originBox = 1 := by
    simp [collisionSize, originBox]
  exact ⟨⟨by rw [hdist]; norm_num, by rw [hdist, hsize]; norm_num⟩,
    C8_pushout_amended originBox deepParticle (by rw [hdist]; norm_num)
      (by rw [hdist, hsize]; norm_num)⟩

/-- C8 counterexample: a particle detected at distance 0.5 inside the unit
box at the origin ends the resolution at distance 0.6 from the center —
still 0.4 short of the collision radius 1, so the particle's distance to
the shape it collided with is not at least the shape's radius within any
small tolerance. -/
theorem C8_pushout_counterexample :
    Vec3.dist deepParticle.pos originBox.pos < collisionSize originBox ∧
    Vec3.dist (stepShape deepParticle originBox).pos originBox.pos = 0.6 ∧
    Vec3.dist (stepShape deepParticle originBox).pos originBox.pos + 0.3 <
      collisionSize originBox := by
  have hsub : deepParticle.pos.sub originBox.pos = ⟨0.5, 0, 0⟩ := by
    simp [deepParticle, originBox, Vec3.sub]
  have hdist : Vec3.dist deepParticle.pos originBox.pos = 0.5 := by
    rw [Vec3.dist, hsub, Vec3.norm_axis, abs_of_pos (by norm_num : (0:ℝ) < 0.5)]
  have hsize : collisionSize originBox = 1 := by
    simp [collisionSize, originBox]
  have hn : Vec3.normalize (deepParticle.pos.sub originBox.pos) = ⟨1, 0, 0⟩ := by
    rw [hsub, Vec3.normalize,
      if_neg (by rw [Vec3.norm_axis, abs_of_pos (by norm_num : (0:ℝ) < 0.5)]; norm_num),
      Vec3.norm_axis, abs_of_pos (by norm_num : (0:ℝ) < 0.5)]
    simp [Vec3.smul]
    norm_num
  have hstep : stepShape deepParticle originBox = ⟨⟨0.6, 0, 0⟩, ⟨0, 0, 0⟩⟩ := by
    rw [stepShape, if_pos (by rw [hdist, hsize]; norm_num), hn]
    simp only [deepParticle, Vec3.add, Vec3.smul, Vec3.reflect, Vec3.dot, Vec3.sub,
      PState.mk.injEq, Vec3.mk.injEq]
    norm_num
  have hd2 : Vec3.dist (⟨⟨0.6, 0, 0⟩, ⟨0, 0, 0⟩⟩ : PState).pos originBox.pos = 0.6 := by
    have hsub2 : (⟨⟨0.6, 0, 0⟩, ⟨0, 0, 0⟩⟩ : PState).pos.sub originBox.pos =
        ⟨0.6, 0, 0⟩ := by
      simp [originBox, Vec3.sub]
    rw [Vec3.dist, hsub2, Vec3.norm_axis, abs_of_pos (by norm_num : (0:ℝ) < 0.6)]
  refine ⟨by rw [hdist, hsize]; norm_num, ?_, ?_⟩
  · rw [hstep, hd2]
  · rw [hstep, hd2, hsize]
    norm_num

end Boundary
